import Mathlib

/-!
Verification of the VCP serial-port library (C core `VCP.h` plus the C#
adapter `VCPWrapper/VCP.cs`) against its natural-language specification.

The OS primitives (`open`, `read`, `write`, `tcgetattr`, `tcsetattr`,
`close`, and their Windows counterparts) are external collaborators: each
is modelled by an oracle value describing the outcome the OS produced, and
the library functions are shallowly embedded as Lean functions of those
oracles.  Machine integers are modelled as `Nat`/`Int`; where the C code
truncates to a fixed width the truncation is written out explicitly.
-/

/-! ## Transport: `poll_COM_port` (VCP.h lines 211-237)

The outcome of one OS-level read: either the OS placed `bs` in the buffer
and returned `bs.length`, or the call failed with error number `errno`
(POSIX `read` returning -1) respectively `GetLastError` code (Windows).
-/

inductive ReadOutcome
  | ok (bs : List Nat)
  | err (errno : Nat)
  deriving DecidableEq

/-- On Linux `EWOULDBLOCK = EAGAIN = 11`. -/
def EWOULDBLOCK : Nat := 11

def ReadOutcome.buffer : ReadOutcome → List Nat
  | .ok bs => bs
  | .err _ => []

def ReadOutcome.errCode : ReadOutcome → Nat
  | .ok _ => 0
  | .err e => e

/-- POSIX branch of `poll_COM_port`: the return value of
`read(hComm, buffer, length)` is `len >= 0` on success (here `bs.length`),
otherwise `-1` with `errno` set.  Source: `if(len >= 0) return len;
else if(errno == EWOULDBLOCK) return 0; else return 0-errno;`. -/
def poll_COM_port (r : ReadOutcome) : Int :=
  match r with
  | .ok bs => (bs.length : Int)
  | .err e => if e = EWOULDBLOCK then 0 else 0 - (e : Int)

/-- Windows branch of `poll_COM_port`: `ReadFile` either succeeds with
`len` bytes (with the configured `COMMTIMEOUTS`, a port with no pending
data succeeds immediately with `len = 0`) or fails, in which case
`0 - GetLastError()` is returned. -/
def poll_COM_port_win (r : ReadOutcome) : Int :=
  match r with
  | .ok bs => (bs.length : Int)
  | .err e => 0 - (e : Int)

/-! ## Hex conversion utilities (VCP.h lines 320-371)

Strings are lists of character codes (the bytes before the NUL
terminator); byte arrays are lists of values below 256.

`ascii2hex` is embedded twice.  `ascii2hex` below is the list-level
embedding of the loop body, faithful for inputs of at most 255
characters, where the `uint8_t` counters `i` and `j` of the C loop cannot
wrap (at most 255 characters are scanned, so at most 128 bytes are
produced).  `ascii2hexLoop` further down is a step-by-step machine with
the 8-bit index wrap-around made explicit; it is used to exhibit the
non-termination of the C loop on longer inputs.
-/

/-- Classification of one character by the three range tests of the C
code, returning the digit value the branch computes: `str[i] - 48` for
0-9, `str[i] - 55` for A-F, `str[i] - 87` for a-f. -/
def hexVal? (c : Nat) : Option Nat :=
  if 48 ≤ c ∧ c ≤ 57 then some (c - 48)
  else if 65 ≤ c ∧ c ≤ 70 then some (c - 55)
  else if 97 ≤ c ∧ c ≤ 102 then some (c - 87)
  else none

/-- State-passing form of the `ascii2hex` loop.  The `pending` argument is
`some u` when `mid = 1` and the half-filled byte `data[j] = u` has been
written (`u` is the digit value shifted left four bits, exactly as the C
code stores it); it is `none` when `mid = 0`.  A completed byte is
`data[j] |= d`, i.e. `u ||| d`; the trailing `if(mid) j++` of the C code
keeps the half-filled byte as the final array entry. -/
def ascii2hexGo : Option Nat → List Nat → List Nat
  | none, [] => []
  | some u, [] => [u]
  | pending, c :: cs =>
    match hexVal? c with
    | none => ascii2hexGo pending cs
    | some d =>
      match pending with
      | none => ascii2hexGo (some (d <<< 4)) cs
      | some u => (u ||| d) :: ascii2hexGo none cs

/-- `ascii2hex` of VCP.h: the byte array produced from a NUL-terminated
string (its return value and `*len` are the length of this list). -/
def ascii2hex (s : List Nat) : List Nat :=
  ascii2hexGo none s

/-- Character produced by `hex2ascii` for one nibble:
`(x>=10)?(x+55):(x+48)`. -/
def hexChar (x : Nat) : Nat :=
  if 10 ≤ x then x + 55 else x + 48

/-- `hex2ascii` of VCP.h: for each byte `b` emit
`hexChar ((b&0xF0)>>4)` then `hexChar (b&0x0F)`.  For a `uint8_t` value
`(b&0xF0)>>4 = b % 256 / 16` and `b&0x0F = b % 16`. -/
def hex2ascii : List Nat → List Nat
  | [] => []
  | b :: bs => hexChar (b % 256 / 16) :: hexChar (b % 16) :: hex2ascii bs

/-! Spec-side definitions, written from the words of the specification
(section 4.3) to be compared with the embedding of the source. -/

/-- Modelled from the spec: the valid hex digits of the input, scanned
left to right, every other character ignored. -/
def specHexDigits (s : List Nat) : List Nat :=
  s.filterMap hexVal?

/-- Modelled from the spec: pack consecutive pairs of digits into bytes,
most-significant nibble first; an odd trailing digit becomes a byte with
low nibble zero. -/
def specPackPairs : List Nat → List Nat
  | [] => []
  | [d] => [d * 16]
  | d1 :: d2 :: ds => (d1 * 16 + d2) :: specPackPairs ds

/-- Modelled from the spec: the whole `ascii_to_hex` behaviour described
in section 4.3. -/
def asciiToHexSpec (s : List Nat) : List Nat :=
  specPackPairs (specHexDigits s)

/-- Modelled from the spec: canonical uppercase form of one character. -/
def toUpper (c : Nat) : Nat :=
  if 97 ≤ c ∧ c ≤ 122 then c - 32 else c

/-- A string consisting only of the characters 0-9, A-F, a-f. -/
def hexOnly (s : List Nat) : Prop :=
  ∀ c ∈ s, (hexVal? c).isSome = true

instance (s : List Nat) : Decidable (hexOnly s) := by
  unfold hexOnly; infer_instance

/-- The padding `hex2ascii ∘ ascii2hex` appends when the digit count is
odd: a single character `'0'` (code 48). -/
def oddPad (n : Nat) : List Nat :=
  if n % 2 = 0 then [] else [48]

/-! Helper lemmas about the hex conversions. -/

theorem hexVal_lt_16 {c v : Nat} (h : hexVal? c = some v) : v < 16 := by
  unfold hexVal? at h
  split_ifs at h <;> injection h with h2 <;> omega

theorem lor_nibble : ∀ d < 16, ∀ v < 16, (d <<< 4) ||| v = d * 16 + v := by
  decide

theorem hexChar_hexVal {c v : Nat} (h : hexVal? c = some v) :
    hexChar v = toUpper c := by
  unfold hexVal? at h
  unfold hexChar toUpper
  split_ifs at h <;> injection h with h2 <;> subst h2 <;>
    split_ifs <;> omega

theorem ascii2hexGo_spec :
    ∀ s : List Nat,
      ascii2hexGo none s = specPackPairs (specHexDigits s) ∧
      ∀ d < 16, ascii2hexGo (some (d <<< 4)) s =
        specPackPairs (d :: specHexDigits s) := by
  intro s
  induction s with
  | nil =>
    refine ⟨rfl, fun d hd => ?_⟩
    simp only [ascii2hexGo, specPackPairs, specHexDigits, List.filterMap_nil,
      Nat.shiftLeft_eq]
  | cons c cs ih =>
    constructor
    · cases hv : hexVal? c with
      | none =>
        simpa [ascii2hexGo, specHexDigits, List.filterMap_cons, hv]
          using ih.1
      | some v =>
        have hlt := hexVal_lt_16 hv
        simpa [ascii2hexGo, specHexDigits, List.filterMap_cons, hv]
          using ih.2 v hlt
    · intro d hd
      cases hv : hexVal? c with
      | none =>
        simpa [ascii2hexGo, specHexDigits, List.filterMap_cons, hv]
          using ih.2 d hd
      | some v =>
        have hlt := hexVal_lt_16 hv
        have hlor := lor_nibble d hd v hlt
        simp [ascii2hexGo, specHexDigits, List.filterMap_cons, hv,
          specPackPairs, hlor, ih.1]

theorem ascii2hex_eq_spec (s : List Nat) :
    ascii2hex s = asciiToHexSpec s :=
  (ascii2hexGo_spec s).1

theorem hex2ascii_roundtrip :
    ∀ s : List Nat,
      (hexOnly s →
        hex2ascii (ascii2hexGo none s) = s.map toUpper ++ oddPad s.length) ∧
      ∀ v < 16, hexOnly s →
        hex2ascii (ascii2hexGo (some (v <<< 4)) s) =
          hexChar v :: (s.map toUpper ++ oddPad (s.length + 1)) := by
  intro s
  induction s with
  | nil =>
    refine ⟨fun _ => rfl, fun v hv _ => ?_⟩
    have h16 : v <<< 4 = v * 16 := by
      simp [Nat.shiftLeft_eq]
    have hmod : v * 16 % 256 / 16 = v := by omega
    have hlow : v * 16 % 16 = 0 := by omega
    simp [ascii2hexGo, hex2ascii, oddPad, h16, hmod, hlow, hexChar]
  | cons c cs ih =>
    constructor
    · intro hhex
      obtain ⟨vc, hv⟩ := Option.isSome_iff_exists.mp (hhex c (by simp))
      have hcs : hexOnly cs := fun x hx => hhex x (by simp [hx])
      have hlt := hexVal_lt_16 hv
      calc hex2ascii (ascii2hexGo none (c :: cs))
          = hex2ascii (ascii2hexGo (some (vc <<< 4)) cs) := by
            simp [ascii2hexGo, hv]
        _ = hexChar vc :: (cs.map toUpper ++ oddPad (cs.length + 1)) :=
            (ih.2 vc hlt) hcs
        _ = (c :: cs).map toUpper ++ oddPad (c :: cs).length := by
            simp [hexChar_hexVal hv, List.length_cons]
    · intro v hvlt hhex
      obtain ⟨vc, hv⟩ := Option.isSome_iff_exists.mp (hhex c (by simp))
      have hcs : hexOnly cs := fun x hx => hhex x (by simp [hx])
      have hclt := hexVal_lt_16 hv
      have hlor := lor_nibble v hvlt vc hclt
      have hbyte : (v * 16 + vc) % 256 = v * 16 + vc := by omega
      have hdiv : (v * 16 + vc) % 256 / 16 = v := by omega
      have hmod : (v * 16 + vc) % 16 = vc := by omega
      calc hex2ascii (ascii2hexGo (some (v <<< 4)) (c :: cs))
          = hex2ascii ((v <<< 4 ||| vc) :: ascii2hexGo none cs) := by
            simp [ascii2hexGo, hv]
        _ = hexChar v :: hexChar vc :: hex2ascii (ascii2hexGo none cs) := by
            simp [hex2ascii, hlor, hdiv, hmod]
        _ = hexChar v :: hexChar vc :: (cs.map toUpper ++ oddPad cs.length) := by
            rw [ih.1 hcs]
        _ = hexChar v :: ((c :: cs).map toUpper ++ oddPad ((c :: cs).length + 1)) := by
            have : oddPad (cs.length + 2) = oddPad cs.length := by
              simp [oddPad, Nat.add_mod_right]
            simp [hexChar_hexVal hv, List.length_cons, this]

/-! ## Step-level machine for the `ascii2hex` loop

This second embedding keeps the `uint8_t` width of the loop counters `i`
and `j` of the C source explicit: both wrap modulo 256.  The caller's
byte array `data` is modelled as 256 cells (every index a `uint8_t` can
produce).  The machine runs on fuel; the C loop terminates exactly when
some fuel suffices.  One fuel unit is one iteration of `while(str[i])`.
-/

def ascii2hexLoop (str : List Nat) :
    Nat → Nat → Nat → Nat → List Nat → Option (List Nat × Nat)
  | 0, _, _, _, _ => none
  | fuel + 1, i, j, mid, data =>
    let c := str.getD i 0
    if c = 0 then
      some (data, if mid ≠ 0 then (j + 1) % 256 else j)
    else
      let next :=
        if 48 ≤ c ∧ c ≤ 57 then
          if mid ≠ 0 then ((j + 1) % 256, 0, data.set j ((data.getD j 0) ||| (c - 48)))
          else (j, 1, data.set j ((c - 48) <<< 4))
        else if 65 ≤ c ∧ c ≤ 70 then
          if mid ≠ 0 then ((j + 1) % 256, 0, data.set j ((data.getD j 0) ||| (c - 55)))
          else (j, 1, data.set j ((c - 55) <<< 4))
        else if 97 ≤ c ∧ c ≤ 102 then
          if mid ≠ 0 then ((j + 1) % 256, 0, data.set j ((data.getD j 0) ||| (c - 87)))
          else (j, 1, data.set j ((c - 87) <<< 4))
        else (j, mid, data)
      ascii2hexLoop str fuel ((i + 1) % 256) next.1 next.2.1 next.2.2

/-- Entry point of the machine: `i = j = mid = 0`, a fresh byte array.
Returns the final array and the value of `j` (the byte count returned by
`ascii2hex`), or `none` when the given fuel is exhausted. -/
def ascii2hexC (str : List Nat) (fuel : Nat) : Option (List Nat × Nat) :=
  ascii2hexLoop str fuel 0 0 0 (List.replicate 256 0)

/-- The C loop runs forever on `str`: no amount of fuel reaches the
terminator. -/
def ascii2hexDiverges (str : List Nat) : Prop :=
  ∀ fuel, ascii2hexC str fuel = none

/-- A 256-character string of the digit `'1'` (code 49).  The loop index
`i` is a `uint8_t`, so only `str[0] .. str[255]` are ever inspected and
all of them are nonzero. -/
def ones256 : List Nat := List.replicate 256 49

set_option maxRecDepth 4096 in
theorem ones256_getD : ∀ i < 256, ones256.getD i 0 = 49 := by
  decide

theorem ascii2hexLoop_ones256 :
    ∀ fuel i j mid data, i < 256 →
      ascii2hexLoop ones256 fuel i j mid data = none := by
  intro fuel
  induction fuel with
  | zero => intro i j mid data _; rfl
  | succ n ih =>
    intro i j mid data hi
    have hc := ones256_getD i hi
    unfold ascii2hexLoop
    simp only [hc]
    norm_num
    exact ih ((i + 1) % 256) _ _ _ (Nat.mod_lt _ (by omega))

/-! ## Poller/adapter: `Port.Poll` (VCP.cs lines 113-136)

One timer tick executes `Poll`, which reads through `poll_COM_port` into
a fresh scratch buffer of capacity `N` (`bufferLength = 500` in the
source), and recurses while a read saturates the buffer.  The sequence of
OS read outcomes the ticks will see is the oracle list; each call to
`poll_COM_port` consumes its head.

The notification channel is the `DataRecived` event.  The code only ever
constructs `DataRecivedEventArgs` carrying bytes; the `errorEvent`
variant below is the distinct error variant the specification asks for
(section 7) and is part of the model so that its absence from every run
can be stated.  A negative return makes `Poll` throw a `Win32Exception`
instead (modelled by the `exn` field).
-/

inductive PortEvent
  | dataRecived (bs : List Nat)
  | errorEvent (e : Nat)
  deriving DecidableEq

structure PollResult where
  events : List PortEvent
  remaining : List ReadOutcome
  exn : Option Nat
  deriving DecidableEq

/-- The scratch buffer after the OS wrote `bs` into its front (`new
byte[N]` is zero-initialised), cropped to `bytesRecived` entries by
`Array.Copy(buffer, croppedBuffer, bytesRecived)`. -/
def croppedBuffer (N : Nat) (bs : List Nat) : List Nat :=
  List.take bs.length (bs ++ List.replicate (N - bs.length) 0)

/-- `Port.Poll`.  `handler` tells whether `DataRecived` has a registered
handler (`DataRecived != null`). -/
def Poll (N : Nat) (handler : Bool) : List ReadOutcome → PollResult
  | [] => ⟨[], [], none⟩
  | r :: rest =>
    let bytesRecived : Int := poll_COM_port r
    if bytesRecived < 0 then
      ⟨[], rest, some r.errCode⟩
    else if 0 < bytesRecived then
      let bs := r.buffer
      let events :=
        if handler then [PortEvent.dataRecived (croppedBuffer N bs)] else []
      if bs.length = N then
        let inner := Poll N handler rest
        ⟨events ++ inner.events, inner.remaining, inner.exn⟩
      else ⟨events, rest, none⟩
    else ⟨[], rest, none⟩

theorem croppedBuffer_eq (N : Nat) (bs : List Nat) :
    croppedBuffer N bs = bs := by
  unfold croppedBuffer
  exact List.take_left bs _

/-- Helper: with no registered handler no event of any kind is ever
produced by `Poll`. -/
theorem Poll_no_handler_events (N : Nat) :
    ∀ reads, (Poll N false reads).events = [] := by
  intro reads
  induction reads with
  | nil => rfl
  | cons r rest ih =>
    unfold Poll
    dsimp only
    split_ifs <;> simp_all

/-- Helper: `Poll` never constructs the error variant on the
notification channel, whatever the oracle holds. -/
theorem Poll_no_errorEvent (N : Nat) (handler : Bool) :
    ∀ reads e, PortEvent.errorEvent e ∉ (Poll N handler reads).events := by
  intro reads
  induction reads with
  | nil => intro e h; simp [Poll] at h
  | cons r rest ih =>
    intro e
    unfold Poll
    dsimp only
    split_ifs <;> simp_all [croppedBuffer_eq]

/-! ## `init_COM_port` (VCP.h lines 58-209)

The function performs a fixed sequence of OS calls; each fallible call's
outcome is an oracle field.  The embedding records the return value and
the exact trace of OS calls issued, in order, so that the
release-before-return discipline is visible.  The POSIX branch issues
`open`, `tcgetattr`, `tcsetattr` and (on failure after a successful
`open`) `close`; the Windows branch issues `CreateFile`, `GetCommState`,
`SetCommState`, `GetCommTimeouts`, `SetCommTimeouts` and (on failure
after a successful `CreateFile`) `CloseHandle`.
-/

inductive OsCall
  | callOpen
  | callTcgetattr
  | callTcsetattr
  | callCloseFd
  | callCreateFile
  | callGetCommState
  | callSetCommState
  | callGetCommTimeouts
  | callSetCommTimeouts
  | callCloseHandle
  deriving DecidableEq

structure PosixOracle where
  openOk : Bool
  getattrOk : Bool
  setattrOk : Bool

structure WinOracle where
  createOk : Bool
  getStateOk : Bool
  setStateOk : Bool
  getTimeoutsOk : Bool
  setTimeoutsOk : Bool

def init_COM_port_posix (o : PosixOracle) : Int × List OsCall :=
  if o.openOk = false then
    (-1, [OsCall.callOpen])
  else if o.getattrOk = false then
    (-1, [OsCall.callOpen, OsCall.callTcgetattr, OsCall.callCloseFd])
  else if o.setattrOk = false then
    (-1, [OsCall.callOpen, OsCall.callTcgetattr, OsCall.callTcsetattr,
      OsCall.callCloseFd])
  else
    (0, [OsCall.callOpen, OsCall.callTcgetattr, OsCall.callTcsetattr])

def init_COM_port_win (o : WinOracle) : Int × List OsCall :=
  if o.createOk = false then
    (-1, [OsCall.callCreateFile])
  else if o.getStateOk = false then
    (-1, [OsCall.callCreateFile, OsCall.callGetCommState,
      OsCall.callCloseHandle])
  else if o.setStateOk = false then
    (-1, [OsCall.callCreateFile, OsCall.callGetCommState,
      OsCall.callSetCommState, OsCall.callCloseHandle])
  else if o.getTimeoutsOk = false then
    (-1, [OsCall.callCreateFile, OsCall.callGetCommState,
      OsCall.callSetCommState, OsCall.callGetCommTimeouts,
      OsCall.callCloseHandle])
  else if o.setTimeoutsOk = false then
    (-1, [OsCall.callCreateFile, OsCall.callGetCommState,
      OsCall.callSetCommState, OsCall.callGetCommTimeouts,
      OsCall.callSetCommTimeouts, OsCall.callCloseHandle])
  else
    (0, [OsCall.callCreateFile, OsCall.callGetCommState,
      OsCall.callSetCommState, OsCall.callGetCommTimeouts,
      OsCall.callSetCommTimeouts])

/-! ## `close_COM_port` (VCP.h lines 307-318) and `Port.Close`
(VCP.cs lines 159-166)

`close_COM_port` unconditionally issues the restore and release OS calls
on whatever `hComm` currently holds and then sets `hComm` to -1 (POSIX
branch; ignoring both return values, so it cannot raise).  `Port.Close`
guards the native call with the `PortOpen` flag.
-/

inductive CloseOsCall
  | tcsetattrOn (fd : Int)
  | closeOn (fd : Int)
  deriving DecidableEq

/-- Returns the new value of `hComm` and the OS calls issued. -/
def close_COM_port (hComm : Int) : Int × List CloseOsCall :=
  (-1, [CloseOsCall.tcsetattrOn hComm, CloseOsCall.closeOn hComm])

/-- `Port.Close`: given the `PortOpen` flag, returns the new flag and
whether the native `close_COM_port` was invoked.  The body contains no
throw statement. -/
def portClose (portOpen : Bool) : Bool × Bool :=
  if portOpen = false then (portOpen, false) else (false, true)

/-! ## `Port.SendBytes` (VCP.cs lines 171-183)

Guards run in source order: `PortOpen`, null `data`, `data.Length == 0`,
`data.Length > byte.MaxValue` (255); only then is the native
`COM_port_send_buffer` invoked, whose (oracled) negative result raises a
`Win32Exception`.  The second component records whether the native write
was invoked.
-/

inductive SendOutcome
  | notOpenExn
  | nullExn
  | emptyExn
  | oversizeExn
  | ioExn (code : Int)
  | sent (n : Nat)
  deriving DecidableEq

def SendBytes (portOpen : Bool) (data : Option (List Nat))
    (nativeResult : Int) : SendOutcome × Bool :=
  if portOpen = false then (SendOutcome.notOpenExn, false)
  else
    match data with
    | none => (SendOutcome.nullExn, false)
    | some d =>
      if d.length = 0 then (SendOutcome.emptyExn, false)
      else if 255 < d.length then (SendOutcome.oversizeExn, false)
      else if nativeResult < 0 then (SendOutcome.ioExn nativeResult, true)
      else (SendOutcome.sent d.length, true)

/-! ## The `Port` constructor baud-rate guard (VCP.cs lines 98-110)

`Array.BinarySearch` on the sorted `BaudRates` table returns the index of
the value when present and a negative number (the bitwise complement of
the insertion point) otherwise; `binarySearch` below reproduces that
contract for the sorted, duplicate-free table.  The constructor throws
`ArgumentException` unless the result is strictly positive.
-/

def BaudRates : List Int :=
  [110, 300, 600, 1200, 2400, 4800, 9600, 14400, 19200, 38400, 57600,
    115200, 128000, 256000]

def binarySearch (arr : List Int) (v : Int) : Int :=
  match arr.findIdx? (fun x => x = v) with
  | some i => (i : Int)
  | none => -(((arr.filter (fun x => x < v)).length : Int) + 1)

/-- The constructor guard: `Array.BinarySearch(BaudRates, baudRate) > 0`;
when it is false the constructor throws. -/
def portCtorAccepts (baudRate : Int) : Bool :=
  binarySearch BaudRates baudRate > 0

/-! ## Claim theorems -/

/-- C1: for every call to `poll_COM_port`, the would-block condition is
returned as a successful read of length 0, never as an error; only
genuine I/O errors produce a failure result, which is the negative of
the OS error code (POSIX branch; on the Windows branch every `ReadFile`
failure likewise yields minus the `GetLastError` code, the would-block
case being a successful zero-length read under the configured
timeouts). -/
theorem c1_poll_would_block_not_error :
    poll_COM_port (ReadOutcome.err EWOULDBLOCK) = 0 ∧
    (∀ bs, poll_COM_port (ReadOutcome.ok bs) = (bs.length : Int)) ∧
    (∀ e, e ≠ EWOULDBLOCK →
      poll_COM_port (ReadOutcome.err e) = 0 - (e : Int)) ∧
    (∀ r, poll_COM_port r < 0 →
      ∃ e, r = ReadOutcome.err e ∧ e ≠ EWOULDBLOCK ∧
        poll_COM_port r = 0 - (e : Int)) ∧
    (∀ e, poll_COM_port_win (ReadOutcome.err e) = 0 - (e : Int)) := by
  refine ⟨by simp [poll_COM_port], fun bs => rfl, fun e he => ?_, ?_, fun e => rfl⟩
  · simp [poll_COM_port, he]
  · intro r hr
    cases r with
    | ok bs =>
      exfalso
      simp only [poll_COM_port] at hr
      omega
    | err e =>
      by_cases he : e = EWOULDBLOCK
      · simp [poll_COM_port, he] at hr
      · exact ⟨e, rfl, he, by simp [poll_COM_port, he]⟩

/-- Witness for C1 at the concrete error code 5 (EIO). -/
theorem c1_witness :
    poll_COM_port (ReadOutcome.err 5) = 0 - (5 : Int) :=
  c1_poll_would_block_not_error.2.2.1 5 (by decide)

/-- C2: on a poll tick with scratch capacity `N` and a registered
handler, a zero-byte read emits nothing and ends the tick; a read of
`1..N-1` bytes emits exactly one notification holding exactly the bytes
read (the buffer cropped to the received count) and ends the tick; a
read of exactly `N` bytes emits its notification and immediately
re-polls, the recursion continuing until a poll returns fewer than `N`
bytes or zero. -/
theorem c2_poll_tick (N : Nat) :
    (∀ rest, Poll N true (ReadOutcome.ok [] :: rest) = ⟨[], rest, none⟩) ∧
    (∀ bs rest, 0 < bs.length → bs.length < N →
      Poll N true (ReadOutcome.ok bs :: rest) =
        ⟨[PortEvent.dataRecived bs], rest, none⟩) ∧
    (∀ bs rest, 0 < bs.length → bs.length = N →
      Poll N true (ReadOutcome.ok bs :: rest) =
        ⟨PortEvent.dataRecived bs :: (Poll N true rest).events,
          (Poll N true rest).remaining, (Poll N true rest).exn⟩) := by
  refine ⟨fun rest => ?_, fun bs rest h1 h2 => ?_, fun bs rest h1 h2 => ?_⟩
  · simp [Poll, poll_COM_port]
  · have hne : bs.length ≠ N := Nat.ne_of_lt h2
    have hnneg : ¬ ((bs.length : Int) < 0) := not_lt.mpr (Int.natCast_nonneg _)
    have hpos : (0 : Int) < (bs.length : Int) := Int.natCast_pos.mpr h1
    unfold Poll
    simp [poll_COM_port, ReadOutcome.buffer, croppedBuffer_eq, hne, hnneg, hpos]
  · subst h2
    have hnneg : ¬ ((bs.length : Int) < 0) := not_lt.mpr (Int.natCast_nonneg _)
    have hpos : (0 : Int) < (bs.length : Int) := Int.natCast_pos.mpr h1
    conv_lhs => rw [Poll]
    simp [poll_COM_port, ReadOutcome.buffer, croppedBuffer_eq, hnneg, hpos]

/-- Witness for C2: capacity 2, a one-byte read notifies that byte and
stops without touching the rest of the oracle. -/
theorem c2_witness :
    Poll 2 true [ReadOutcome.ok [7], ReadOutcome.ok [1, 2]] =
      ⟨[PortEvent.dataRecived [7]], [ReadOutcome.ok [1, 2]], none⟩ :=
  (c2_poll_tick 2).2.1 [7] [ReadOutcome.ok [1, 2]] (by decide) (by decide)

/-- C3: 110 is the first entry of the supported `BaudRates` table, yet
the constructor guard `Array.BinarySearch(BaudRates, baudRate) > 0`
rejects index 0, so requesting the supported rate 110 throws
`ArgumentException` — contradicting both the claim and the table's own
documentation.  Rates outside the table (negative search result) are
rejected as the claim demands, and other table rates are accepted. -/
theorem c3_baud_110_rejected :
    (110 : Int) ∈ BaudRates ∧
    portCtorAccepts 110 = false ∧
    portCtorAccepts 300 = true ∧
    portCtorAccepts 9600 = true ∧
    portCtorAccepts 115201 = false ∧
    portCtorAccepts 0 = false := by
  decide

/-- C4 counterexample: `ascii2hex` does not process every NUL-terminated
string as claimed.  Its loop indices are `uint8_t`; on a 256-character
string of the digit 1 the index `i` wraps to 0 before ever reaching the
terminator, so the loop never exits: the step-faithful machine returns
`none` at every fuel. -/
theorem c4_counterexample :
    ascii2hexDiverges ones256 ∧ ones256.length = 256 := by
  constructor
  · intro fuel
    exact ascii2hexLoop_ones256 fuel 0 0 0 (List.replicate 256 0) (by norm_num)
  · unfold ones256
    rw [List.length_replicate]

set_option maxRecDepth 16384 in
/-- C4 (amended to strings shorter than 256 characters, where the 8-bit
loop counters cannot wrap): `ascii2hex` ignores every character outside
0-9, A-F, a-f, packs consecutive pairs of digits most-significant nibble
first, pads an odd trailing digit with a zero low nibble; concretely
both "A4a38" and "A4-a3 8" produce the bytes 0xA4 0xA3 0x80, and on
"A4a38" the step-level machine agrees with the list-level embedding. -/
theorem c4_ascii2hex_matches_spec :
    (∀ s : List Nat, s.length ≤ 255 → ascii2hex s = asciiToHexSpec s) ∧
    ascii2hex [65, 52, 97, 51, 56] = [164, 163, 128] ∧
    ascii2hex [65, 52, 45, 97, 51, 32, 56] = [164, 163, 128] ∧
    (ascii2hexC [65, 52, 97, 51, 56] 32).map (fun p => (p.1.take p.2, p.2)) =
      some ([164, 163, 128], 3) := by
  refine ⟨fun s _ => ascii2hex_eq_spec s, by decide, by decide, ?_⟩
  decide

/-- Witness for C4 at a concrete short string. -/
theorem c4_witness :
    ascii2hex [48, 70] = asciiToHexSpec [48, 70] :=
  c4_ascii2hex_matches_spec.1 [48, 70] (by decide)

/-- C5 counterexample: for the one-character hex string "8" the
round-trip gives "80", not the canonical uppercase form "8" — an odd
digit count appends a padding 0. -/
theorem c5_counterexample :
    hexOnly [56] ∧
    hex2ascii (ascii2hex [56]) ≠ List.map toUpper [56] := by
  decide

/-- C5 (amended to inputs of even length, at most 255 characters): the
round-trip `hex2ascii (ascii2hex s)` reproduces the canonical uppercase
hex-digit form of `s` for every even-length input composed only of the
characters 0-9, A-F, a-f; for odd length a trailing padding character
would be appended. -/
theorem c5_roundtrip_even (s : List Nat) (hhex : hexOnly s)
    (heven : s.length % 2 = 0) (_hlen : s.length ≤ 255) :
    hex2ascii (ascii2hex s) = s.map toUpper := by
  have h := (hex2ascii_roundtrip s).1 hhex
  simpa [ascii2hex, oddPad, heven] using h

/-- Witness for C5 on the string "aF". -/
theorem c5_witness :
    hex2ascii (ascii2hex [97, 70]) = List.map toUpper [97, 70] :=
  c5_roundtrip_even [97, 70] (by decide) (by decide) (by decide)

/-- C6: in every execution of `init_COM_port` in which the OS handle was
acquired and a later settings step failed, the last OS call issued
before the error return is the release of the handle (`close` on the
POSIX branch, `CloseHandle` on the Windows branch), so no failed open
leaves a handle open. -/
theorem c6_open_failure_releases_handle :
    (∀ o : PosixOracle, o.openOk = true → (init_COM_port_posix o).1 ≠ 0 →
      (init_COM_port_posix o).2.getLast? = some OsCall.callCloseFd) ∧
    (∀ o : WinOracle, o.createOk = true → (init_COM_port_win o).1 ≠ 0 →
      (init_COM_port_win o).2.getLast? = some OsCall.callCloseHandle) := by
  constructor
  · rintro ⟨a, b, c⟩ h1 h2
    simp only at h1
    subst h1
    cases b <;> cases c <;> simp_all [init_COM_port_posix]
  · rintro ⟨a, b, c, d, e⟩ h1 h2
    simp only at h1
    subst h1
    cases b <;> cases c <;> cases d <;> cases e <;>
      simp_all [init_COM_port_win]

/-- Witness for C6: `tcgetattr` fails after a successful `open`. -/
theorem c6_witness :
    (init_COM_port_posix ⟨true, false, true⟩).2.getLast? =
      some OsCall.callCloseFd :=
  c6_open_failure_releases_handle.1 ⟨true, false, true⟩ rfl (by decide)

/-- C7 counterexample: a second direct call to `close_COM_port` is not
free of OS operations — it re-issues `tcsetattr` and `close` on the
invalidated handle value -1 (their failures are ignored, so nothing is
raised, but OS calls are performed). -/
theorem c7_counterexample :
    (close_COM_port (close_COM_port 3).1).2 =
      [CloseOsCall.tcsetattrOn (-1), CloseOsCall.closeOn (-1)] ∧
    (close_COM_port (close_COM_port 3).1).2 ≠ [] := by
  decide

/-- C7 (amended to the consumer-facing `Port.Close`, whose `PortOpen`
guard makes the second call return before any native call; the C-level
`close_COM_port` called twice does perform OS calls on the stale
handle): after any first `Port.Close` the port is closed, and a second
`Port.Close` leaves it closed and invokes no OS operation — and the
method body contains no throw, so it raises nothing. -/
theorem c7_port_close_idempotent :
    ∀ portOpen : Bool, portClose (portClose portOpen).1 = (false, false) := by
  decide

/-- C8: with the port open, sending a buffer of length 0 or of length
greater than 255 (`byte.MaxValue`) raises the corresponding
`ArgumentException` (a usage error) and the native write is never
invoked, whatever result the OS write would have produced. -/
theorem c8_sendbytes_rejects (d : List Nat) (nativeResult : Int)
    (h : d.length = 0 ∨ 255 < d.length) :
    (SendBytes true (some d) nativeResult).2 = false ∧
    ((SendBytes true (some d) nativeResult).1 = SendOutcome.emptyExn ∨
      (SendBytes true (some d) nativeResult).1 = SendOutcome.oversizeExn) := by
  unfold SendBytes
  rcases h with h | h
  · simp [h]
  · have hne : d.length ≠ 0 := by omega
    simp [hne, h]

/-- Witness for C8 on a 256-byte buffer. -/
theorem c8_witness :
    (SendBytes true (some (List.replicate 256 0)) 0).2 = false ∧
    ((SendBytes true (some (List.replicate 256 0)) 0).1 =
        SendOutcome.emptyExn ∨
      (SendBytes true (some (List.replicate 256 0)) 0).1 =
        SendOutcome.oversizeExn) :=
  c8_sendbytes_rejects (List.replicate 256 0) 0
    (Or.inr (by rw [List.length_replicate]; norm_num))

/-- C9 counterexample: when the read of a poll tick fails (here with OS
error 7), `Poll` delivers nothing at all on the notification channel —
the event list of the run is empty, in particular it contains no error
variant — and instead ends with a thrown exception. -/
theorem c9_counterexample :
    (Poll 500 true [ReadOutcome.err 7]).events = [] ∧
    (Poll 500 true [ReadOutcome.err 7]).exn = some 7 := by
  decide

/-- C9 (amended): a failing read during a poll tick makes `Poll` raise
an exception carrying the OS error code from the polling callback; the
failure is not conflated with a data notification — indeed no event of
any kind, and never an error variant, is emitted through the
`DataRecived` channel for it — and the drain stops at the failure. -/
theorem c9_poll_error_raises :
    (∀ N handler e rest, e ≠ EWOULDBLOCK → 0 < e →
      Poll N handler (ReadOutcome.err e :: rest) = ⟨[], rest, some e⟩) ∧
    (∀ N handler reads e,
      PortEvent.errorEvent e ∉ (Poll N handler reads).events) := by
  constructor
  · intro N handler e rest he hpos
    have hcond : poll_COM_port (ReadOutcome.err e) < 0 := by
      simp only [poll_COM_port, if_neg he]
      omega
    unfold Poll
    dsimp only
    simp [hcond, ReadOutcome.errCode]
  · intro N handler reads e
    exact Poll_no_errorEvent N handler reads e

/-- Witness for C9 at error code 5. -/
theorem c9_witness :
    Poll 500 true [ReadOutcome.err 5] = ⟨[], [], some 5⟩ :=
  c9_poll_error_raises.1 500 true 5 [] (by decide) (by decide)

/-- C10: with no registered notification handler, `Poll` emits no event
whatever the reads return (the bytes are discarded, nothing is buffered
in the model's event stream), yet a buffer-saturating read still
triggers the immediate re-poll, so the pending OS data is drained and
lost. -/
theorem c10_no_handler_discards_and_drains (N : Nat) :
    (∀ reads, (Poll N false reads).events = []) ∧
    (∀ bs rest, 0 < bs.length → bs.length = N →
      Poll N false (ReadOutcome.ok bs :: rest) =
        ⟨[], (Poll N false rest).remaining, (Poll N false rest).exn⟩) := by
  constructor
  · exact Poll_no_handler_events N
  · intro bs rest h1 h2
    subst h2
    have hnneg : ¬ ((bs.length : Int) < 0) := not_lt.mpr (Int.natCast_nonneg _)
    have hpos : (0 : Int) < (bs.length : Int) := Int.natCast_pos.mpr h1
    conv_lhs => rw [Poll]
    simp [poll_COM_port, ReadOutcome.buffer, hnneg, hpos,
      Poll_no_handler_events bs.length rest]

/-- Witness for C10: a saturating one-byte read with no handler emits
nothing and drains the next oracle entry, whose error surfaces. -/
theorem c10_witness :
    Poll 1 false [ReadOutcome.ok [9], ReadOutcome.err 4] =
      ⟨[], [], some 4⟩ := by
  have h := (c10_no_handler_discards_and_drains 1).2 [9] [ReadOutcome.err 4]
    (by decide) (by decide)
  rw [h]
  decide
